import Mathlib

/-!
Verification of the 2captcha-rust client against its specification.

The development shallowly embeds the submission-normalization and polling
logic of the repository (`src/utils.rs`, `src/api.rs`, `src/solver.rs`).
Rust `HashMap<String, String>` values are modelled as duplicate-free
association lists (`StrMap`); external collaborators (the filesystem, the
HTTP transport, serde_json, the base64 codec) are modelled as explicit
oracle parameters, so a theorem quantified over every oracle shows the
code path consults none of them.  Durations are counted in whole seconds,
matching `Duration::as_secs` as used by the code's error message; elapsed
time advances only at the polling sleep.
-/

namespace TwoCap

/-- Association-list model of Rust's `HashMap<String, String>`.
Lookup takes the first binding; every map built by the embedded code has
duplicate-free keys, matching the Rust type. -/
abbrev StrMap := List (String × String)

/-- First-binding lookup, the model of `HashMap::get`. -/
def StrMap.find? : StrMap → String → Option String
  | [], _ => none
  | (k, v) :: rest, key => if k = key then some v else StrMap.find? rest key

/-- Remove every binding of a key, the model of `HashMap::remove`. -/
def StrMap.erase : StrMap → String → StrMap
  | [], _ => []
  | (k, v) :: rest, key =>
    if k = key then StrMap.erase rest key else (k, v) :: StrMap.erase rest key

/-- Model of `HashMap::insert`: the new binding replaces any old one. -/
def StrMap.insert (m : StrMap) (k v : String) : StrMap :=
  (k, v) :: StrMap.erase m k

/-- Model of `HashMap::extend`: each binding of `m₂` is inserted into `m₁`,
so bindings of `m₂` overwrite those of `m₁`. -/
def StrMap.extend : StrMap → StrMap → StrMap
  | m₁, [] => m₁
  | m₁, (k, v) :: rest => StrMap.extend (StrMap.insert m₁ k v) rest

/-- The keys of a map, used to state duplicate-freeness. -/
def StrMap.keys : StrMap → List String
  | [] => []
  | (k, _) :: rest => k :: StrMap.keys rest

/-- Model of `HashMap::is_empty`. -/
def StrMap.isEmpty : StrMap → Bool
  | [] => true
  | _ :: _ => false

/-- A map is well-formed when its keys are duplicate-free, as is forced by
the Rust `HashMap` type. -/
def StrMap.WF (m : StrMap) : Prop := List.Nodup (StrMap.keys m)

instance (m : StrMap) : Decidable (StrMap.WF m) :=
  inferInstanceAs (Decidable (List.Nodup (StrMap.keys m)))

theorem StrMap.find?_erase (m : StrMap) (k key : String) :
    StrMap.find? (StrMap.erase m k) key =
      if key = k then none else StrMap.find? m key := by
  induction m with
  | nil =>
    by_cases h : key = k <;> simp [StrMap.erase, StrMap.find?, h]
  | cons kv rest ih =>
    obtain ⟨k', v'⟩ := kv
    by_cases h1 : k' = k
    · subst h1
      by_cases h2 : key = k'
      · subst h2
        simp [StrMap.erase, StrMap.find?, ih]
      · have h4 : ¬ k' = key := fun h => h2 h.symm
        simp [StrMap.erase, StrMap.find?, ih, h2, h4]
    · by_cases h2 : k' = key
      · subst h2
        simp [StrMap.erase, StrMap.find?, h1]
      · by_cases h3 : key = k
        · subst h3
          simp [StrMap.erase, StrMap.find?, ih, h1, h2]
        · simp [StrMap.erase, StrMap.find?, ih, h1, h2, h3]

theorem StrMap.find?_insert (m : StrMap) (k v key : String) :
    StrMap.find? (StrMap.insert m k v) key =
      if key = k then some v else StrMap.find? m key := by
  by_cases h : key = k
  · subst h; simp [StrMap.insert, StrMap.find?]
  · have h2 : ¬ k = key := fun hh => h hh.symm
    simp [StrMap.insert, StrMap.find?, h, h2, StrMap.find?_erase]

theorem StrMap.find?_insert_self (m : StrMap) (k v : String) :
    StrMap.find? (StrMap.insert m k v) k = some v := by
  simp [StrMap.find?_insert]

theorem StrMap.find?_insert_ne (m : StrMap) (k v key : String) (h : key ≠ k) :
    StrMap.find? (StrMap.insert m k v) key = StrMap.find? m key := by
  simp [StrMap.find?_insert, h]

theorem StrMap.keys_erase (m : StrMap) (k : String) :
    StrMap.keys (StrMap.erase m k) =
      List.filter (fun key => key ≠ k) (StrMap.keys m) := by
  induction m with
  | nil => rfl
  | cons kv rest ih =>
    obtain ⟨k', v'⟩ := kv
    by_cases h : k' = k <;>
      simp [StrMap.erase, StrMap.keys, List.filter_cons, h, ih]

theorem StrMap.wf_erase {m : StrMap} (h : StrMap.WF m) (k : String) :
    StrMap.WF (StrMap.erase m k) := by
  unfold StrMap.WF at h ⊢
  rw [StrMap.keys_erase]
  exact List.Nodup.filter _ h

theorem StrMap.wf_insert {m : StrMap} (h : StrMap.WF m) (k v : String) :
    StrMap.WF (StrMap.insert m k v) := by
  have hk : k ∉ StrMap.keys (StrMap.erase m k) := by
    rw [StrMap.keys_erase]
    intro hmem
    have := List.of_mem_filter hmem
    simp at this
  have hkeys : StrMap.keys (StrMap.insert m k v) =
      k :: StrMap.keys (StrMap.erase m k) := rfl
  unfold StrMap.WF
  rw [hkeys]
  exact List.nodup_cons.mpr ⟨hk, StrMap.wf_erase h k⟩

theorem StrMap.find?_eq_none_of_not_mem_keys (m : StrMap) (key : String)
    (h : key ∉ StrMap.keys m) : StrMap.find? m key = none := by
  induction m with
  | nil => rfl
  | cons kv rest ih =>
    obtain ⟨k, v⟩ := kv
    have hmem : key ∈ StrMap.keys ((k, v) :: rest) ↔
        key = k ∨ key ∈ StrMap.keys rest := by
      show key ∈ k :: StrMap.keys rest ↔ _
      simp
    have h1 : ¬ k = key := fun hh => h (hmem.mpr (Or.inl hh.symm))
    have h2 : key ∉ StrMap.keys rest := fun hh => h (hmem.mpr (Or.inr hh))
    simp [StrMap.find?, h1, ih h2]

/-- Bindings of the extending map win: a key absent from `m₂` keeps its
`m₁` binding. -/
theorem StrMap.find?_extend_of_not_mem (m₁ m₂ : StrMap) (key : String)
    (h : StrMap.find? m₂ key = none) :
    StrMap.find? (StrMap.extend m₁ m₂) key = StrMap.find? m₁ key := by
  induction m₂ generalizing m₁ with
  | nil => rfl
  | cons kv rest ih =>
    obtain ⟨k, v⟩ := kv
    by_cases hk : k = key
    · simp [StrMap.find?, hk] at h
    · simp only [StrMap.find?, if_neg hk] at h
      show StrMap.find? (StrMap.extend (StrMap.insert m₁ k v) rest) key = _
      rw [ih _ h, StrMap.find?_insert_ne _ _ _ _ (fun hh => hk hh.symm)]

/-- A key present in a duplicate-free `m₂` ends up bound to its `m₂` value. -/
theorem StrMap.find?_extend_of_mem (m₁ m₂ : StrMap) (key v : String)
    (hwf : StrMap.WF m₂) (h : StrMap.find? m₂ key = some v) :
    StrMap.find? (StrMap.extend m₁ m₂) key = some v := by
  induction m₂ generalizing m₁ with
  | nil => exact absurd h (by simp [StrMap.find?])
  | cons kv rest ih =>
    obtain ⟨k, v'⟩ := kv
    have hwf2 : List.Nodup (k :: StrMap.keys rest) := hwf
    have hnotmem : k ∉ StrMap.keys rest := (List.nodup_cons.mp hwf2).1
    have hwfrest : StrMap.WF rest := (List.nodup_cons.mp hwf2).2
    by_cases hk : k = key
    · subst hk
      simp only [StrMap.find?, if_pos rfl] at h
      have hrest : StrMap.find? rest k = none :=
        StrMap.find?_eq_none_of_not_mem_keys _ _ hnotmem
      show StrMap.find? (StrMap.extend (StrMap.insert m₁ k v') rest) k = some v
      rw [StrMap.find?_extend_of_not_mem _ _ _ hrest, StrMap.find?_insert_self]
      exact h
    · simp only [StrMap.find?, if_neg hk] at h
      exact ih _ hwfrest h

/-! ### String helpers

Rust's `str::contains(char)`, `str::starts_with(str)`, `str::contains(str)`
and `str::len` (UTF-8 byte length), modelled on the character data of the
Lean string. -/

/-- Model of Rust `str::contains(char)`. -/
def strContains (s : String) (c : Char) : Bool := List.contains s.data c

/-- Whether `p` occurs at the start of `l`, used for `str::starts_with`. -/
def charsLead : List Char → List Char → Bool
  | [], _ => true
  | _ :: _, [] => false
  | a :: as, b :: bs => a = b && charsLead as bs

/-- Model of Rust `str::starts_with(p)`. -/
def strLead (p s : String) : Bool := charsLead p.data s.data

/-- Whether the character list `needle` occurs anywhere in `hay`, used for
`str::contains(str)`. -/
def charsHaveSub (needle : List Char) : List Char → Bool
  | [] => List.isEmpty needle
  | c :: rest => charsLead needle (c :: rest) || charsHaveSub needle rest

/-- Model of Rust `str::contains(str)`. -/
def strHasSub (s needle : String) : Bool := charsHaveSub needle.data s.data

/-- Model of Rust `str::len`: the UTF-8 byte length. -/
def strLen (s : String) : Nat := s.utf8ByteSize

/-- Model of the byte slice `&s[3..]` that strips the `OK|` lead-in: for a
string whose first three characters are ASCII this equals dropping three
characters. -/
def strDrop3 (s : String) : String := String.mk (List.drop 3 s.data)

/-! ### Error type

`TwoCaptchaError` from `src/error.rs`.  The variants wrapping foreign
error types (`reqwest::Error`, `serde_json::Error`, `std::io::Error`,
base64 and url errors) carry their message as a string. -/

/-- The error enum of `src/error.rs`. -/
inductive TwoCaptchaError where
  | validation (msg : String)
  | network (msg : String)
  | api (msg : String)
  | timeout (msg : String)
  | request (msg : String)
  | json (msg : String)
  | base64 (msg : String)
  | io (msg : String)
  | urlParse (msg : String)
deriving DecidableEq, Repr

/-- Whether an error is the `Validation` kind. -/
def TwoCaptchaError.isValidation : TwoCaptchaError → Bool
  | .validation _ => true
  | _ => false

/-- Whether an error is the `Network` kind; `wait_result` retries exactly
on these. -/
def TwoCaptchaError.isNetwork : TwoCaptchaError → Bool
  | .network _ => true
  | _ => false

/-- Whether a call failed at all, regardless of kind. -/
def isErr {α : Type} : Except TwoCaptchaError α → Bool
  | .error _ => true
  | .ok _ => false

/-- Whether a call failed with a `Validation` error. -/
def failsWithValidation {α : Type} : Except TwoCaptchaError α → Bool
  | .error e => TwoCaptchaError.isValidation e
  | .ok _ => false

/-! ### `src/utils.rs`

`Utils::get_method`, `Utils::extract_files`, `Utils::check_hint_img` and
`Utils::rename_params`.  The filesystem (`Path::exists`), the HTTP
download (`reqwest::get` plus `Response::bytes`), the base64 encoder and
serde_json's proxy parsing are oracle parameters. -/

/-- Outcome of `reqwest::get(url)` followed by `status()` and `bytes()`:
either a status code with the downloaded bytes, or a transport-level
failure (a `reqwest::Error`, which `?` converts into
`TwoCaptchaError::Request`). -/
inductive Download where
  | ok (status : Nat) (content : List Nat)
  | fail (msg : String)

/-- The external collaborators of `Utils::get_method`: the filesystem
existence check and the HTTP download. -/
structure World where
  fileExists : String → Bool
  httpGet : String → Download

/-- Model of `Utils::get_method` from `src/utils.rs`: classify a file-like input as
an inline base64 body, a remote URL to download, or a local path.  `b64`
models `base64::engine::general_purpose::STANDARD.encode`. -/
def get_method (b64 : List Nat → String) (w : World) (file : String) :
    Except TwoCaptchaError StrMap :=
  if file = "" then
    .error (.validation "File required")
  else if strContains file '.' = false ∧ 50 < strLen file then
    .ok (StrMap.insert (StrMap.insert [] "method" "base64") "body" file)
  else if strLead "http" file then
    match w.httpGet file with
    | .fail msg => .error (.request msg)
    | .ok status content =>
      if status ≠ 200 then
        .error (.validation ("File could not be downloaded from url: " ++ file))
      else
        .ok (StrMap.insert (StrMap.insert [] "method" "base64") "body"
          (b64 content))
  else if w.fileExists file = false then
    .error (.validation ("File not found: " ++ file))
  else
    .ok (StrMap.insert (StrMap.insert [] "method" "post") "file" file)

/-- The `{:?}` debug rendering of one string, as used by
`format!("File not found: {:?}", not_exists)`; faithful for paths without
quotes, backslashes or control characters. -/
def rustDebugStr (s : String) : String := "\"" ++ s ++ "\""

/-- The `{:?}` debug rendering of a vector of strings. -/
def rustDebugList (l : List String) : String :=
  "[" ++ String.intercalate ", " (List.map rustDebugStr l) ++ "]"

/-- The numbering loop of `Utils::extract_files`: insert
`file_<i+1> ↦ file` for each file, in input order. -/
def numberFiles : List String → Nat → StrMap → StrMap
  | [], _, acc => acc
  | f :: rest, i, acc =>
    numberFiles rest (i + 1) (StrMap.insert acc ("file_" ++ Nat.repr (i + 1)) f)

/-- Model of `Utils::extract_files` from `src/utils.rs`. -/
def extract_files (fileExists : String → Bool) (files : List String)
    (max_files : Nat) : Except TwoCaptchaError StrMap :=
  if files.length > max_files then
    .error (.validation ("Too many files (max: " ++ Nat.repr max_files ++ ")"))
  else
    let not_exists := List.filter (fun f => !fileExists f) files
    if not_exists.isEmpty = false then
      .error (.validation ("File not found: " ++ rustDebugList not_exists))
    else
      .ok (numberFiles files 0 [])

/-- Model of `Utils::check_hint_img` from `src/utils.rs`: pull `imginstructions`
out of the parameters; pass a base64-shaped hint back as a parameter, and
move a hint path (after an existence check) into the file-upload set,
pulling the primary `file` parameter along when the set was empty. -/
def check_hint_img (fileExists : String → Bool) (params files : StrMap) :
    Except TwoCaptchaError (StrMap × StrMap) :=
  match StrMap.find? params "imginstructions" with
  | none => .ok (params, files)
  | some hint =>
    if strContains hint '.' = false ∧ 50 < strLen hint then
      .ok (StrMap.insert (StrMap.erase params "imginstructions")
        "imginstructions" hint, files)
    else if fileExists hint = false then
      .error (.validation ("File not found: " ++ hint))
    else if StrMap.isEmpty files then
      match StrMap.find? (StrMap.erase params "imginstructions") "file" with
      | some f =>
        .ok (StrMap.erase (StrMap.erase params "imginstructions") "file",
          StrMap.insert (StrMap.insert files "file" f) "imginstructions" hint)
      | none =>
        .ok (StrMap.erase params "imginstructions",
          StrMap.insert files "imginstructions" hint)
    else
      .ok (StrMap.erase params "imginstructions",
        StrMap.insert files "imginstructions" hint)

/-- The fixed rename table of `Utils::rename_params`. -/
def replacements : List (String × String) :=
  [("caseSensitive", "regsense"),
   ("minLen", "min_len"),
   ("maxLen", "max_len"),
   ("minLength", "min_len"),
   ("maxLength", "max_len"),
   ("hintText", "textinstructions"),
   ("hintImg", "imginstructions"),
   ("url", "pageurl"),
   ("score", "min_score"),
   ("text", "textcaptcha"),
   ("rows", "recaptcharows"),
   ("cols", "recaptchacols"),
   ("previousId", "previousID"),
   ("canSkip", "can_no_answer"),
   ("apiServer", "api_server"),
   ("softId", "soft_id"),
   ("callback", "pingback"),
   ("datas", "data-s")]

/-- The rename loop of `Utils::rename_params`: for each table entry in
order, move the binding of the old key (when present) to the new key. -/
def applyRenames : List (String × String) → StrMap → StrMap → StrMap × StrMap
  | [], params, newParams => (params, newParams)
  | (o, n) :: rest, params, newParams =>
    match StrMap.find? params o with
    | some v =>
      applyRenames rest (StrMap.erase params o) (StrMap.insert newParams n v)
    | none => applyRenames rest params newParams

/-- Model of `Utils::rename_params` from `src/utils.rs`.  `parseProxy` models the
serde_json step: parsing the removed `proxy` value into its `uri` and
`type` string fields, returning `none` when the value is not a JSON
object carrying both fields (in which case the value is silently
dropped). -/
def rename_params (parseProxy : String → Option (String × String))
    (params : StrMap) : StrMap :=
  let step := applyRenames replacements params []
  let afterProxy :=
    match StrMap.find? step.1 "proxy" with
    | some proxyStr =>
      (StrMap.erase step.1 "proxy",
        match parseProxy proxyStr with
        | some (uri, ptype) =>
          StrMap.insert (StrMap.insert step.2 "proxy" uri) "proxytype" ptype
        | none => step.2)
    | none => (step.1, step.2)
  StrMap.extend afterProxy.2 afterProxy.1

/-! ### `src/api.rs`

`ApiClient::in_`, `ApiClient::res` and `ApiClient::handle_response`.  The
outcome of one `reqwest` request is an oracle value (`HttpResp`); issuing
a request consumes exactly one such value, so a model that consults a
single value makes exactly one request. -/

/-- Outcome of one `reqwest` send: a status code with the response text,
or a transport-level failure (`reqwest::Error`, converted by `?` into
`TwoCaptchaError::Request`). -/
inductive HttpResp where
  | ok (status : Nat) (body : String)
  | fail (msg : String)

/-- Model of `ApiClient::handle_response` from `src/api.rs`: any non-200 status is
a `Network` error carrying the status (the status code is rendered as its
bare number here), any payload containing the substring `ERROR` is an
`Api` error carrying the payload, and otherwise the raw text is returned. -/
def handle_response : HttpResp → Except TwoCaptchaError String
  | .fail msg => .error (.request msg)
  | .ok status body =>
    if status ≠ 200 then .error (.network ("bad response: " ++ Nat.repr status))
    else if strHasSub body "ERROR" then .error (.api body)
    else .ok body

/-- Model of `ApiClient::in_` from `src/api.rs`.  When no explicit file set is
given but the parameters still carry a `file` key, the file is read from
disk (`readFile`, an I/O failure becoming `TwoCaptchaError::Io`) before
the single request is issued; the request outcome `http` then passes
through `handle_response`. -/
def apiIn (readFile : String → Except String (List Nat)) (http : HttpResp)
    (files : Option (List (String × List Nat))) (params : StrMap) :
    Except TwoCaptchaError String :=
  match files with
  | some _ => handle_response http
  | none =>
    match StrMap.find? params "file" with
    | some path =>
      match readFile path with
      | .error msg => .error (.io msg)
      | .ok _ => handle_response http
    | none => handle_response http

/-! ### `src/solver.rs`

The `TwoCaptcha` client: construction, `default_params`, `send`,
`wait_result`, `get_result`, `solve`, `balance` and `report`. -/

/-- The configuration fields of the `TwoCaptcha` struct. -/
structure TwoCaptchaCfg where
  api_key : String
  soft_id : Option Nat
  callback : Option String
  default_timeout : Nat
  recaptcha_timeout : Nat
  polling_interval : Nat
  server : String
  max_files : Nat
  extended_response : Bool

/-- Model of `TwoCaptcha::new` from `src/solver.rs`: a missing soft id defaults to
`4580`, the timeouts default to 120 s and 600 s, the polling interval to
10 s, the server to `2captcha.com`, and `max_files` is fixed at 9. -/
def TwoCaptcha.new (api_key : String) (soft_id : Option Nat)
    (callback : Option String)
    (default_timeout recaptcha_timeout polling_interval : Option Nat)
    (server : Option String) (extended_response : Option Bool) :
    TwoCaptchaCfg :=
  { api_key := api_key
    soft_id := soft_id.or (some 4580)
    callback := callback
    default_timeout := default_timeout.getD 120
    recaptcha_timeout := recaptcha_timeout.getD 600
    polling_interval := polling_interval.getD 10
    server := server.getD "2captcha.com"
    max_files := 9
    extended_response := extended_response.getD false }

/-- Model of `TwoCaptcha::default_params` from `src/solver.rs`: force the `key`
binding to the client's API key, then add the optional callback and soft
id. -/
def default_params (c : TwoCaptchaCfg) (params : StrMap) : StrMap :=
  let params1 := StrMap.insert params "key" c.api_key
  let params2 :=
    match c.callback with
    | some cb => StrMap.insert params1 "callback" cb
    | none => params1
  match c.soft_id with
  | some sid => StrMap.insert params2 "softId" (Nat.repr sid)
  | none => params2

/-- The parameter pipeline of `TwoCaptcha::send`: inject defaults, apply
the rename table, then split off hint-image files (starting from an empty
file set). -/
def sentParams (parseProxy : String → Option (String × String))
    (fileExists : String → Bool) (c : TwoCaptchaCfg) (params : StrMap) :
    Except TwoCaptchaError (StrMap × StrMap) :=
  check_hint_img fileExists (rename_params parseProxy (default_params c params)) []

/-- The file-to-bytes loop of `TwoCaptcha::send`: read every file of the
upload set, an I/O failure becoming `TwoCaptchaError::Io`. -/
def readFilesBytes (readFile : String → Except String (List Nat)) :
    StrMap → Except TwoCaptchaError (List (String × List Nat))
  | [] => .ok []
  | (k, path) :: rest =>
    match readFile path with
    | .error msg => .error (.io msg)
    | .ok content =>
      match readFilesBytes readFile rest with
      | .error e => .error e
      | .ok others => .ok ((k, content) :: others)

/-- The response interpretation at the end of `TwoCaptcha::send`: a body
with the literal `OK|` lead-in yields the task id after it, any other
body is an `Api` error, and an error from the transport layer passes
through untouched. -/
def interpretSubmit (resp : Except TwoCaptchaError String) :
    Except TwoCaptchaError String :=
  match resp with
  | .error e => .error e
  | .ok response =>
    if strLead "OK|" response then .ok (strDrop3 response)
    else .error (.api ("cannot recognize response " ++ response))

/-- Model of `TwoCaptcha::send` from `src/solver.rs`, issuing exactly one request
(the single oracle value `http`). -/
def send (parseProxy : String → Option (String × String))
    (fileExists : String → Bool)
    (readFile : String → Except String (List Nat)) (http : HttpResp)
    (c : TwoCaptchaCfg) (params : StrMap) : Except TwoCaptchaError String :=
  match sentParams parseProxy fileExists c params with
  | .error e => .error e
  | .ok (p, files) =>
    if StrMap.isEmpty files then
      interpretSubmit (apiIn readFile http none p)
    else
      match readFilesBytes readFile files with
      | .error e => .error e
      | .ok bytes => interpretSubmit (apiIn readFile http (some bytes) p)

/-- Model of `TwoCaptcha::wait_result` from `src/solver.rs`.  `fetch n` is the
outcome of the `n`-th `get_result` call; `elapsed` advances by the
polling interval at each sleep, mirroring `start.elapsed()` under the
model where only sleeps take time.  The result carries the final elapsed
time; `none` means the fuel ran out before the loop finished, so a
`some` result at any fuel witnesses termination. -/
def waitResultFuel (fetch : Nat → Except TwoCaptchaError String)
    (timeout interval : Nat) :
    Nat → Nat → Nat → Option (Except TwoCaptchaError String × Nat)
  | 0, _, _ => none
  | fuel + 1, elapsed, polls =>
    if elapsed < timeout then
      match fetch polls with
      | .ok result => some (.ok result, elapsed)
      | .error e =>
        if TwoCaptchaError.isNetwork e then
          waitResultFuel fetch timeout interval fuel (elapsed + interval)
            (polls + 1)
        else some (.error e, elapsed)
    else
      some (.error (.timeout ("timeout " ++ Nat.repr timeout ++ " exceeded")),
        elapsed)

/-- Model of `TwoCaptcha::get_result` from `src/solver.rs`, interpreting one raw
poll response.  `statusField` models `serde_json::from_str::<Value>`
followed by `.get("status").and_then(as_i64)`: `.error` is a JSON parse
failure (made a `Json` error by `?`), `.ok s` the optional integer
status. -/
def get_result (statusField : String → Except String (Option Int))
    (extended : Bool) (resp : Except TwoCaptchaError String) :
    Except TwoCaptchaError String :=
  match resp with
  | .error e => .error e
  | .ok response =>
    if extended then
      match statusField response with
      | .error msg => .error (.json msg)
      | .ok s =>
        if s = some 0 then .error (.network "CAPTCHA_NOT_READY")
        else if s ≠ some 1 then
          .error (.api ("Unexpected status in response: " ++ response))
        else .ok response
    else
      if response = "CAPCHA_NOT_READY" then
        .error (.network "CAPTCHA_NOT_READY")
      else if strLead "OK|" response then .ok (strDrop3 response)
      else .error (.api ("cannot recognize response " ++ response))

/-- The `CaptchaResult` struct of `src/types.rs`; the extended map's
`serde_json::Value` entries are carried as strings, which no claim
inspects. -/
structure CaptchaResult where
  captcha_id : String
  code : Option String
  extended : Option StrMap
deriving DecidableEq, Repr

/-- Model of `TwoCaptcha::solve` from `src/solver.rs`, after submission:
`submitResult` is the outcome of `self.send(params)`, `fetch` the poll
oracle handed to `wait_result`, and `parseExt` models the
`serde_json::from_str::<ExtendedResponse>` step, returning the built
extended map on success. -/
def solve (c : TwoCaptchaCfg) (parseExt : String → Option StrMap)
    (submitResult : Except TwoCaptchaError String)
    (fetch : Nat → Except TwoCaptchaError String)
    (timeout polling_interval : Option Nat) (fuel : Nat) :
    Option (Except TwoCaptchaError CaptchaResult) :=
  match submitResult with
  | .error e => some (.error e)
  | .ok id =>
    if c.callback.isNone then
      match waitResultFuel fetch (timeout.getD c.default_timeout)
          (polling_interval.getD c.polling_interval) fuel 0 0 with
      | none => none
      | some (.error e, _) => some (.error e)
      | some (.ok code, _) =>
        if c.extended_response then
          match parseExt code with
          | some m => some (.ok ⟨id, none, some m⟩)
          | none => some (.ok ⟨id, some code, none⟩)
        else some (.ok ⟨id, some code, none⟩)
    else some (.ok ⟨id, none, none⟩)

/-- Model of `TwoCaptcha::balance` from `src/solver.rs`: one `res` request, whose
outcome is `resp`; `parseF64` models `str::parse::<f64>`, carrying a
successfully parsed balance as its source text. -/
def balance (parseF64 : String → Option String)
    (resp : Except TwoCaptchaError String) : Except TwoCaptchaError String :=
  match resp with
  | .error e => .error e
  | .ok response =>
    match parseF64 response with
    | some b => .ok b
    | none => .error (.api ("Invalid balance response: " ++ response))

/-- Model of `TwoCaptcha::report` from `src/solver.rs`: one `res` request, the
response body discarded. -/
def report (resp : Except TwoCaptchaError String) :
    Except TwoCaptchaError Unit :=
  match resp with
  | .error e => .error e
  | .ok _ => .ok ()

/-! ## Claims -/

/-- Claim C3 (amended): for a raw submission response body delivered with
status 200 that does not contain the substring `ERROR`, a body with the
literal `OK|` lead-in yields exactly the substring after it as the task
id, and any other body yields an `Api` error containing
"cannot recognize response"; a body containing `ERROR` is intercepted by
`handle_response` and yields an `Api` error carrying the raw payload
instead. -/
theorem submit_response_interpretation (body : String) :
    (strHasSub body "ERROR" = true →
      interpretSubmit (handle_response (.ok 200 body)) = .error (.api body)) ∧
    (strHasSub body "ERROR" = false → strLead "OK|" body = true →
      interpretSubmit (handle_response (.ok 200 body)) = .ok (strDrop3 body)) ∧
    (strHasSub body "ERROR" = false → strLead "OK|" body = false →
      interpretSubmit (handle_response (.ok 200 body)) =
        .error (.api ("cannot recognize response " ++ body))) := by
  refine ⟨fun h => ?_, fun h1 h2 => ?_, fun h1 h2 => ?_⟩
  · simp [interpretSubmit, handle_response, h]
  · simp [interpretSubmit, handle_response, h1, h2]
  · simp [interpretSubmit, handle_response, h1, h2]

/-- Witness for C3's amended theorem at concrete bodies, including the
spec's example that `OK|abc123` yields exactly `abc123`. -/
theorem submit_response_interpretation_witness :
    interpretSubmit (handle_response (.ok 200 "OK|abc123")) = .ok "abc123" ∧
    interpretSubmit (handle_response (.ok 200 "NOTOK")) =
      .error (.api ("cannot recognize response " ++ "NOTOK")) := by
  refine ⟨?_, ?_⟩
  · have h := (submit_response_interpretation "OK|abc123").2.1
      (by decide) (by decide)
    have hdrop : strDrop3 "OK|abc123" = "abc123" := by decide
    rw [h, hdrop]
  · exact (submit_response_interpretation "NOTOK").2.2 (by decide) (by decide)

/-- Counterexample to claim C3 as stated: the status-200 body
`OK|ERROR1` begins with `OK|`, yet submission does not return the task
id `ERROR1` — `handle_response` classifies any payload containing
`ERROR` as an `Api` error first.  Likewise `ERROR_WRONG_USER_KEY` fails
with an `Api` error whose message does not contain
"cannot recognize response". -/
theorem submit_response_counterexample :
    interpretSubmit (handle_response (.ok 200 "OK|ERROR1")) =
      .error (.api "OK|ERROR1") ∧
    (Except.error (TwoCaptchaError.api "OK|ERROR1") ≠
      (Except.ok "ERROR1" : Except TwoCaptchaError String)) ∧
    interpretSubmit (handle_response (.ok 200 "ERROR_WRONG_USER_KEY")) =
      .error (.api "ERROR_WRONG_USER_KEY") ∧
    strHasSub "ERROR_WRONG_USER_KEY" "cannot recognize response" = false := by
  refine ⟨by rfl, fun h => Except.noConfusion h, by rfl, by rfl⟩

/-- Claim C5: an input with no `.` character and byte length above 50 is
classified as an inline encoded body: the result is the same for every
filesystem/network oracle (so no filesystem or network access can
influence it), with method `base64` and the input echoed verbatim as the
body. -/
theorem get_method_inline_base64 (b64 : List Nat → String) (w w' : World)
    (file : String) (hdot : strContains file '.' = false)
    (hlen : 50 < strLen file) :
    get_method b64 w file =
      .ok (StrMap.insert (StrMap.insert [] "method" "base64") "body" file) ∧
    get_method b64 w file = get_method b64 w' file ∧
    StrMap.find?
      (StrMap.insert (StrMap.insert [] "method" "base64") "body" file)
      "method" = some "base64" ∧
    StrMap.find?
      (StrMap.insert (StrMap.insert [] "method" "base64") "body" file)
      "body" = some file := by
  have hne : ¬ file = "" := by
    intro h
    subst h
    exact absurd hlen (by decide)
  refine ⟨?_, ?_, by rfl, by rfl⟩ <;> simp [get_method, hne, hdot, hlen]

/-- Witness for C5 at a concrete 56-character base64 input and two
disagreeing worlds. -/
theorem get_method_inline_base64_witness :
    get_method (fun _ => "") ⟨fun _ => false, fun _ => .fail "down"⟩
      "iVBORw0KGgoAAAANSUhEUgAAAAEAAAABCAYAAAAfFcSJAAAADUlEQVR4" =
      .ok (StrMap.insert (StrMap.insert [] "method" "base64") "body"
        "iVBORw0KGgoAAAANSUhEUgAAAAEAAAABCAYAAAAfFcSJAAAADUlEQVR4") ∧
    StrMap.find?
      (StrMap.insert (StrMap.insert [] "method" "base64") "body"
        "iVBORw0KGgoAAAANSUhEUgAAAAEAAAABCAYAAAAfFcSJAAAADUlEQVR4")
      "body" =
      some "iVBORw0KGgoAAAANSUhEUgAAAAEAAAABCAYAAAAfFcSJAAAADUlEQVR4" := by
  have h := get_method_inline_base64 (fun _ => "")
    ⟨fun _ => false, fun _ => .fail "down"⟩ ⟨fun _ => true, fun _ => .fail "x"⟩
    "iVBORw0KGgoAAAANSUhEUgAAAAEAAAABCAYAAAAfFcSJAAAADUlEQVR4"
    (by decide) (by decide)
  exact ⟨h.1, h.2.2.2⟩

/-- Claim C9: the inline-base64 classification takes precedence over the
remote-URL one — an input that begins with `http` yet has no `.` and
byte length above 50 is still echoed verbatim as an inline body, with
the same result under every oracle, so the URL is never fetched. -/
theorem get_method_inline_precedence (b64 : List Nat → String) (w w' : World)
    (file : String) (hlead : strLead "http" file = true)
    (hdot : strContains file '.' = false) (hlen : 50 < strLen file) :
    get_method b64 w file =
      .ok (StrMap.insert (StrMap.insert [] "method" "base64") "body" file) ∧
    get_method b64 w file = get_method b64 w' file := by
  have hne : ¬ file = "" := by
    intro h
    subst h
    exact absurd hlen (by decide)
  constructor <;> simp [get_method, hne, hdot, hlen]

/-- Witness for C9: a 52-character dotless input that begins with `http`,
polled against a world whose download would fail. -/
theorem get_method_inline_precedence_witness :
    get_method (fun _ => "") ⟨fun _ => false, fun _ => .fail "down"⟩
      "httpAAAAAAAAAAAAAAAAAAAAAAAAAAAAAAAAAAAAAAAAAAAAAAAA" =
      .ok (StrMap.insert (StrMap.insert [] "method" "base64") "body"
        "httpAAAAAAAAAAAAAAAAAAAAAAAAAAAAAAAAAAAAAAAAAAAAAAAA") :=
  (get_method_inline_precedence (fun _ => "")
    ⟨fun _ => false, fun _ => .fail "down"⟩ ⟨fun _ => true, fun _ => .fail "x"⟩
    "httpAAAAAAAAAAAAAAAAAAAAAAAAAAAAAAAAAAAAAAAAAAAAAAAA"
    (by decide) (by decide) (by decide)).1

/-- Claim C6 (amended): an empty input, a URL download answered with a
non-200 status, and a nonexistent local path each fail with a
`Validation` error naming the offending input — but a transport-level
download failure surfaces as a `Request` error (the `?` conversion of
`reqwest::Error`), not as `Validation`. -/
theorem get_method_failure_kinds (b64 : List Nat → String) (w : World)
    (file : String) :
    (get_method b64 w "" = .error (.validation "File required")) ∧
    (∀ status content, file ≠ "" →
      ¬(strContains file '.' = false ∧ 50 < strLen file) →
      strLead "http" file = true →
      w.httpGet file = .ok status content → status ≠ 200 →
      get_method b64 w file =
        .error (.validation
          ("File could not be downloaded from url: " ++ file))) ∧
    (∀ msg, file ≠ "" →
      ¬(strContains file '.' = false ∧ 50 < strLen file) →
      strLead "http" file = true →
      w.httpGet file = .fail msg →
      get_method b64 w file = .error (.request msg)) ∧
    (file ≠ "" →
      ¬(strContains file '.' = false ∧ 50 < strLen file) →
      strLead "http" file = false →
      w.fileExists file = false →
      get_method b64 w file =
        .error (.validation ("File not found: " ++ file))) := by
  refine ⟨by rfl, fun status content h1 h2 h3 h4 h5 => ?_,
    fun msg h1 h2 h3 h4 => ?_, fun h1 h2 h3 h4 => ?_⟩ <;>
    simp [get_method, h1, h2, h3, h4]
  · simp [h5]

/-- Witness for C6's amended theorem: concrete inputs for all four
failure shapes. -/
theorem get_method_failure_kinds_witness :
    get_method (fun _ => "") ⟨fun _ => false, fun _ => .fail "down"⟩ "" =
      .error (.validation "File required") ∧
    get_method (fun _ => "") ⟨fun _ => false, fun _ => .ok 404 []⟩
      "http://x.co/a.png" =
      .error (.validation
        ("File could not be downloaded from url: " ++ "http://x.co/a.png")) ∧
    get_method (fun _ => "") ⟨fun _ => false, fun _ => .fail "down"⟩
      "http://x.co/a.png" = .error (.request "down") ∧
    get_method (fun _ => "") ⟨fun _ => false, fun _ => .fail "down"⟩
      "missing.png" =
      .error (.validation ("File not found: " ++ "missing.png")) := by
  refine ⟨(get_method_failure_kinds (fun _ => "")
      ⟨fun _ => false, fun _ => .fail "down"⟩ "x").1, ?_, ?_, ?_⟩
  · exact (get_method_failure_kinds (fun _ => "")
      ⟨fun _ => false, fun _ => .ok 404 []⟩ "http://x.co/a.png").2.1
      404 [] (by decide) (by decide) (by decide) rfl (by decide)
  · exact (get_method_failure_kinds (fun _ => "")
      ⟨fun _ => false, fun _ => .fail "down"⟩ "http://x.co/a.png").2.2.1
      "down" (by decide) (by decide) (by decide) rfl
  · exact (get_method_failure_kinds (fun _ => "")
      ⟨fun _ => false, fun _ => .fail "down"⟩ "missing.png").2.2.2
      (by decide) (by decide) (by decide) rfl

/-- Counterexample to claim C6 as stated: a transport failure while
downloading a remote URL makes `get_method` fail with a `Request` error,
not a `Validation` error, so not every failure of `get_method` is of the
`Validation` kind. -/
theorem get_method_failure_kinds_counterexample :
    get_method (fun _ => "")
      ⟨fun _ => false, fun _ => .fail "connection error"⟩ "http://x.co/a.png" =
      .error (.request "connection error") ∧
    isErr (get_method (fun _ => "")
      ⟨fun _ => false, fun _ => .fail "connection error"⟩ "http://x.co/a.png") =
      true ∧
    failsWithValidation (get_method (fun _ => "")
      ⟨fun _ => false, fun _ => .fail "connection error"⟩ "http://x.co/a.png") =
      false := by
  exact ⟨by rfl, by rfl, by rfl⟩

/-- Claim C8: with a callback URL configured on the client, `solve`
returns immediately after a successful submission with an outcome
carrying only the task id — `code` and `extended` are both absent — and
the result is independent of the poll oracle and of the fuel (here even
fuel 0 suffices), so the result endpoint is never fetched. -/
theorem solve_callback_skips_polling (c : TwoCaptchaCfg) (cb : String)
    (parseExt : String → Option StrMap) (id : String)
    (fetch : Nat → Except TwoCaptchaError String)
    (timeout polling_interval : Option Nat) (fuel : Nat)
    (hcb : c.callback = some cb) :
    solve c parseExt (.ok id) fetch timeout polling_interval fuel =
      some (.ok ⟨id, none, none⟩) := by
  simp [solve, hcb]

/-- Witness for C8: a concrete client with a callback, zero fuel, and a
poll oracle that would never report a ready result. -/
theorem solve_callback_skips_polling_witness :
    solve (TwoCaptcha.new "k" none (some "https://cb.example") none none none
        none none)
      (fun _ => none) (.ok "999")
      (fun _ => .error (.network "CAPTCHA_NOT_READY")) none none 0 =
      some (.ok ⟨"999", none, none⟩) :=
  solve_callback_skips_polling _ "https://cb.example" _ "999" _ none none 0 rfl

/-- Claim C2: inside the polling loop a Network-classified fetch error
causes exactly a sleep of the polling interval followed by a retry,
while every other error kind returns immediately; outside the loop,
submission consults its single transport outcome once and propagates
every transport-stage error unchanged (so Validation errors from the
parameter pipeline and Api errors from response classification surface
immediately and nothing is retried), and `balance` and `report`
propagate every error of their single request unchanged. -/
theorem error_retry_policy :
    (∀ fetch timeout interval fuel elapsed polls msg,
      elapsed < timeout →
      fetch polls = .error (.network msg) →
      waitResultFuel fetch timeout interval (fuel + 1) elapsed polls =
        waitResultFuel fetch timeout interval fuel (elapsed + interval)
          (polls + 1)) ∧
    (∀ fetch timeout interval fuel elapsed polls e,
      elapsed < timeout →
      fetch polls = .error e →
      TwoCaptchaError.isNetwork e = false →
      waitResultFuel fetch timeout interval (fuel + 1) elapsed polls =
        some (.error e, elapsed)) ∧
    (∀ pp fx rf http c params e,
      sentParams pp fx c params = .error e →
      send pp fx rf http c params = .error e) ∧
    (∀ pp fx rf http c params p files,
      sentParams pp fx c params = .ok (p, files) →
      StrMap.isEmpty files = true →
      StrMap.find? p "file" = none →
      send pp fx rf http c params = interpretSubmit (handle_response http)) ∧
    (∀ e, interpretSubmit (.error e) = .error e) ∧
    (∀ parseF64 e, balance parseF64 (.error e) = .error e) ∧
    (∀ e, report (.error e) = .error e) := by
  refine ⟨fun fetch timeout interval fuel elapsed polls msg h1 h2 => ?_,
    fun fetch timeout interval fuel elapsed polls e h1 h2 h3 => ?_,
    fun pp fx rf http c params e h => ?_,
    fun pp fx rf http c params p files h1 h2 h3 => ?_,
    fun e => rfl, fun parseF64 e => rfl, fun e => rfl⟩
  · simp [waitResultFuel, h1, h2, TwoCaptchaError.isNetwork]
  · simp [waitResultFuel, h1, h2, h3]
  · simp [send, h]
  · simp [send, h1, h2, apiIn, h3]

/-- Witness for C2 at concrete inputs: a not-ready poll retries, a
Validation poll error stops the loop, a failed parameter pipeline and
the single-request errors of submission, balance and report all surface
unchanged. -/
theorem error_retry_policy_witness :
    waitResultFuel (fun _ => .error (.network "CAPTCHA_NOT_READY")) 10 2 3 0 0 =
      waitResultFuel (fun _ => .error (.network "CAPTCHA_NOT_READY")) 10 2 2 2 1 ∧
    waitResultFuel (fun _ => .error (.validation "bad")) 10 2 3 0 0 =
      some (.error (.validation "bad"), 0) ∧
    send (fun _ => none) (fun _ => false) (fun _ => .ok []) (.ok 200 "OK|1")
      (TwoCaptcha.new "k" none none none none none none none)
      [("imginstructions", "missing.png")] =
      .error (.validation ("File not found: " ++ "missing.png")) ∧
    send (fun _ => none) (fun _ => false) (fun _ => .ok []) (.fail "down")
      (TwoCaptcha.new "k" none none none none none none none) [] =
      .error (.request "down") ∧
    balance (fun _ => none) (.error (.api "ERROR_ZERO_BALANCE")) =
      .error (.api "ERROR_ZERO_BALANCE") ∧
    report (.error (.network "bad response: 502")) =
      .error (.network "bad response: 502") := by
  refine ⟨?_, ?_, ?_, ?_, ?_, ?_⟩
  · exact error_retry_policy.1 (fun _ => .error (.network "CAPTCHA_NOT_READY"))
      10 2 2 0 0 "CAPTCHA_NOT_READY" (by decide) rfl
  · exact error_retry_policy.2.1 (fun _ => .error (.validation "bad"))
      10 2 2 0 0 (.validation "bad") (by decide) rfl (by decide)
  · exact error_retry_policy.2.2.1 (fun _ => none) (fun _ => false)
      (fun _ => .ok []) (.ok 200 "OK|1")
      (TwoCaptcha.new "k" none none none none none none none)
      [("imginstructions", "missing.png")]
      (.validation ("File not found: " ++ "missing.png")) (by rfl)
  · have h := error_retry_policy.2.2.2.1 (fun _ => none) (fun _ => false)
      (fun _ => .ok []) (.fail "down")
      (TwoCaptcha.new "k" none none none none none none none) []
      [("key", "k"), ("soft_id", "4580")] [] (by rfl) (by rfl) (by rfl)
    rw [h]
    rfl
  · exact error_retry_policy.2.2.2.2.2.1 (fun _ => none) (.api "ERROR_ZERO_BALANCE")
  · exact error_retry_policy.2.2.2.2.2.2 (.network "bad response: 502")

/-- One retry step keeps the closed form of the final elapsed time: the
loop that starts at `elapsed` and sleeps `interval` per retry stops at
`elapsed + interval * ceil((timeout - elapsed) / interval)`. -/
theorem elapsed_step_eq (timeout elapsed interval : Nat) (hint : 0 < interval)
    (hlt : elapsed < timeout) :
    elapsed + interval +
      interval * ((timeout - (elapsed + interval) + interval - 1) / interval) =
    elapsed + interval * ((timeout - elapsed + interval - 1) / interval) := by
  have hd1 : 1 ≤ timeout - elapsed := by omega
  have hr : timeout - elapsed + interval - 1 =
      (timeout - elapsed - 1) + interval := by omega
  rw [hr, Nat.add_div_right _ hint]
  by_cases hcase : timeout - elapsed ≤ interval
  · have h0 : timeout - (elapsed + interval) = 0 := by omega
    rw [h0]
    have hz : (0 + interval - 1) / interval = 0 := Nat.div_eq_of_lt (by omega)
    have hz2 : (timeout - elapsed - 1) / interval = 0 :=
      Nat.div_eq_of_lt (by omega)
    rw [hz, hz2]
    ring
  · have hnum : timeout - (elapsed + interval) + interval - 1 =
        (timeout - elapsed - 1 - interval) + interval := by omega
    rw [hnum, Nat.add_div_right _ hint]
    have hsplit : timeout - elapsed - 1 =
        (timeout - elapsed - 1 - interval) + interval := by omega
    have hq : (timeout - elapsed - 1) / interval =
        (timeout - elapsed - 1 - interval) / interval + 1 := by
      conv_lhs => rw [hsplit]
      exact Nat.add_div_right _ hint
    rw [hq]
    ring

/-- The polling loop under a permanently not-ready oracle: with any
sufficient fuel it returns the Timeout error naming the configured
threshold, with final elapsed time
`elapsed + interval * ceil((timeout - elapsed) / interval)`. -/
theorem waitResultFuel_all_network
    (fetch : Nat → Except TwoCaptchaError String) (timeout interval : Nat)
    (hfetch : ∀ n, ∃ msg, fetch n = .error (.network msg))
    (hint : 0 < interval) :
    ∀ fuel elapsed polls, timeout ≤ elapsed + fuel * interval →
      waitResultFuel fetch timeout interval (fuel + 1) elapsed polls =
        some (.error (.timeout ("timeout " ++ Nat.repr timeout ++ " exceeded")),
          elapsed + interval * ((timeout - elapsed + interval - 1) / interval)) := by
  intro fuel
  induction fuel with
  | zero =>
    intro elapsed polls h
    simp only [Nat.zero_mul, Nat.add_zero] at h
    have hlt : ¬ elapsed < timeout := Nat.not_lt.mpr h
    have hform : timeout - elapsed = 0 := Nat.sub_eq_zero_of_le h
    have hz : (timeout - elapsed + interval - 1) / interval = 0 := by
      rw [hform]
      exact Nat.div_eq_of_lt (by omega)
    simp only [waitResultFuel, if_neg hlt, hz, Nat.mul_zero, Nat.add_zero]
  | succ fuel ih =>
    intro elapsed polls h
    by_cases hlt : elapsed < timeout
    · obtain ⟨msg, hmsg⟩ := hfetch polls
      have hstep : waitResultFuel fetch timeout interval (fuel + 1 + 1)
          elapsed polls =
          waitResultFuel fetch timeout interval (fuel + 1) (elapsed + interval)
            (polls + 1) :=
        error_retry_policy.1 fetch timeout interval (fuel + 1) elapsed polls
          msg hlt hmsg
      rw [hstep, ih (elapsed + interval) (polls + 1) (by
        have hexp : (fuel + 1) * interval = fuel * interval + interval := by
          ring
        omega)]
      rw [elapsed_step_eq timeout elapsed interval hint hlt]
    · have h0 : timeout ≤ elapsed := Nat.not_lt.mp hlt
      have hform : timeout - elapsed = 0 := Nat.sub_eq_zero_of_le h0
      have hz : (timeout - elapsed + interval - 1) / interval = 0 := by
        rw [hform]
        exact Nat.div_eq_of_lt (by omega)
      simp only [waitResultFuel, if_neg hlt, hz, Nat.mul_zero, Nat.add_zero]

/-- Claim C1: when every poll of the result endpoint yields a
Network-classified error (the not-ready sentinel), a solve call's
polling loop with timeout `T` and positive interval `I` terminates —
any fuel of at least `T / I + 2` steps suffices — with the Timeout error
naming the threshold `T`, and its accumulated elapsed time
`I * ceil(T / I)` is at most `T + I`. -/
theorem wait_result_timeout_bound
    (fetch : Nat → Except TwoCaptchaError String) (timeout interval fuel : Nat)
    (hfetch : ∀ n, ∃ msg, fetch n = .error (.network msg))
    (hint : 0 < interval) (hfuel : timeout / interval + 2 ≤ fuel) :
    waitResultFuel fetch timeout interval fuel 0 0 =
      some (.error (.timeout ("timeout " ++ Nat.repr timeout ++ " exceeded")),
        interval * ((timeout + interval - 1) / interval)) ∧
    interval * ((timeout + interval - 1) / interval) ≤ timeout + interval := by
  constructor
  · have hfuel2 : 2 ≤ fuel :=
      le_trans (Nat.le_add_left 2 (timeout / interval)) hfuel
    obtain ⟨fuel', rfl⟩ : ∃ f, fuel = f + 1 := ⟨fuel - 1, by omega⟩
    have hmod : timeout % interval < interval := Nat.mod_lt _ hint
    have hdm : interval * (timeout / interval) + timeout % interval = timeout :=
      Nat.div_add_mod timeout interval
    have h2 : timeout < interval * (timeout / interval) + interval :=
      calc timeout
          = interval * (timeout / interval) + timeout % interval := hdm.symm
        _ < interval * (timeout / interval) + interval :=
            Nat.add_lt_add_left hmod _
    have h3 : (timeout / interval + 1) * interval
        = interval * (timeout / interval) + interval := by ring
    have h4 : (timeout / interval + 1) * interval ≤ fuel' * interval :=
      Nat.mul_le_mul_right _ (Nat.le_of_succ_le_succ hfuel)
    have hle : timeout ≤ 0 + fuel' * interval :=
      calc timeout ≤ interval * (timeout / interval) + interval :=
            Nat.le_of_lt h2
        _ = (timeout / interval + 1) * interval := h3.symm
        _ ≤ fuel' * interval := h4
        _ = 0 + fuel' * interval := (Nat.zero_add _).symm
    have := waitResultFuel_all_network fetch timeout interval hfetch hint
      fuel' 0 0 hle
    rw [this]
    rw [Nat.sub_zero timeout, Nat.zero_add]
  · have h1 : (timeout + interval - 1) / interval * interval ≤
        timeout + interval - 1 := Nat.div_mul_le_self _ _
    calc interval * ((timeout + interval - 1) / interval)
        = (timeout + interval - 1) / interval * interval := Nat.mul_comm _ _
      _ ≤ timeout + interval - 1 := h1
      _ ≤ timeout + interval := Nat.sub_le _ _

/-- Witness for C1: timeout 3 s, interval 2 s, fuel 3 against the
always-not-ready oracle gives the Timeout error at elapsed time 4 ≤ 5. -/
theorem wait_result_timeout_bound_witness :
    waitResultFuel (fun _ => .error (.network "CAPTCHA_NOT_READY")) 3 2 3 0 0 =
      some (.error (.timeout ("timeout " ++ Nat.repr 3 ++ " exceeded")),
        2 * ((3 + 2 - 1) / 2)) ∧
    2 * ((3 + 2 - 1) / 2) ≤ 3 + 2 :=
  wait_result_timeout_bound (fun _ => .error (.network "CAPTCHA_NOT_READY"))
    3 2 3 (fun _ => ⟨"CAPTCHA_NOT_READY", rfl⟩) (by decide) (by decide)

/-! ### Lemmas about the rename loop -/

theorem applyRenames_fst_find? (tbl : List (String × String))
    (params np : StrMap) (key : String) :
    StrMap.find? (applyRenames tbl params np).1 key =
      if key ∈ List.map Prod.fst tbl then none
      else StrMap.find? params key := by
  induction tbl generalizing params np with
  | nil => simp [applyRenames]
  | cons e rest ih =>
    obtain ⟨o, n⟩ := e
    by_cases hk : key = o
    · subst hk
      cases hfind : StrMap.find? params key with
      | none =>
        simp only [applyRenames, hfind]
        rw [ih]
        by_cases hmem : key ∈ List.map Prod.fst rest <;> simp [hmem, hfind]
      | some v =>
        simp only [applyRenames, hfind]
        rw [ih]
        by_cases hmem : key ∈ List.map Prod.fst rest <;>
          simp [hmem, StrMap.find?_erase]
    · have hiff : (key ∈ o :: List.map Prod.fst rest) ↔
          key ∈ List.map Prod.fst rest := by
        constructor
        · intro hc
          rcases List.mem_cons.mp hc with h | h
          · exact absurd h hk
          · exact h
        · exact List.mem_cons_of_mem o
      cases hfind : StrMap.find? params o with
      | none =>
        simp only [applyRenames, hfind]
        rw [ih]
        exact (if_congr hiff rfl rfl).symm
      | some v =>
        simp only [applyRenames, hfind]
        rw [ih, StrMap.find?_erase]
        simp only [if_neg hk]
        exact (if_congr hiff rfl rfl).symm

theorem applyRenames_fst_wf (tbl : List (String × String)) (params np : StrMap)
    (hwf : StrMap.WF params) : StrMap.WF (applyRenames tbl params np).1 := by
  induction tbl generalizing params np with
  | nil => exact hwf
  | cons e rest ih =>
    obtain ⟨o, n⟩ := e
    cases hfind : StrMap.find? params o with
    | none =>
      simp only [applyRenames, hfind]
      exact ih _ _ hwf
    | some v =>
      simp only [applyRenames, hfind]
      exact ih _ _ (StrMap.wf_erase hwf o)

theorem applyRenames_snd_absent (tbl : List (String × String))
    (params np : StrMap) (key : String)
    (h : ∀ o n, (o, n) ∈ tbl → n = key → StrMap.find? params o = none) :
    StrMap.find? (applyRenames tbl params np).2 key = StrMap.find? np key := by
  induction tbl generalizing params np with
  | nil => rfl
  | cons e rest ih =>
    obtain ⟨o, n⟩ := e
    cases hfind : StrMap.find? params o with
    | none =>
      simp only [applyRenames, hfind]
      exact ih _ _ (fun o' n' hm hn => h o' n' (List.mem_cons_of_mem _ hm) hn)
    | some v =>
      simp only [applyRenames, hfind]
      have hne : n ≠ key := by
        intro hn
        rw [h o n (List.mem_cons_self _ _) hn] at hfind
        exact Option.noConfusion hfind
      refine (ih _ _ fun o' n' hm hn => ?_).trans
        (StrMap.find?_insert_ne _ _ _ _ (fun hh => hne hh.symm))
      rw [StrMap.find?_erase]
      by_cases ho : o' = o
      · simp [ho]
      · simp only [if_neg ho]
        exact h o' n' (List.mem_cons_of_mem _ hm) hn

theorem applyRenames_snd_not_target (tbl : List (String × String))
    (params np : StrMap) (key : String)
    (h : key ∉ List.map Prod.snd tbl) :
    StrMap.find? (applyRenames tbl params np).2 key = StrMap.find? np key := by
  induction tbl generalizing params np with
  | nil => rfl
  | cons e rest ih =>
    obtain ⟨o, n⟩ := e
    have hn : key ≠ n := fun hh => h (by simp [hh])
    have hrest : key ∉ List.map Prod.snd rest := fun hh => h (by simp [hh])
    cases hfind : StrMap.find? params o with
    | none =>
      simp only [applyRenames, hfind]
      exact ih _ _ hrest
    | some v =>
      simp only [applyRenames, hfind]
      rw [ih _ _ hrest, StrMap.find?_insert_ne _ _ _ _ hn]

theorem applyRenames_snd_entry (tbl : List (String × String))
    (params np : StrMap) (o n v : String)
    (hnodup : List.Nodup (List.map Prod.fst tbl))
    (hmem : (o, n) ∈ tbl)
    (hval : StrMap.find? params o = some v)
    (hothers : ∀ o', (o', n) ∈ tbl → o' ≠ o →
      StrMap.find? params o' = none) :
    StrMap.find? (applyRenames tbl params np).2 n = some v := by
  induction tbl generalizing params np with
  | nil => simp at hmem
  | cons e rest ih =>
    obtain ⟨o₁, n₁⟩ := e
    rcases List.mem_cons.mp hmem with hhead | htail
    · injection hhead with ho hn
      subst ho
      subst hn
      simp only [applyRenames, hval]
      rw [applyRenames_snd_absent rest _ _ n (fun o' n' hm hn' => ?_),
        StrMap.find?_insert_self]
      rw [StrMap.find?_erase]
      by_cases ho' : o' = o
      · simp [ho']
      · simp only [if_neg ho']
        exact hothers o' (List.mem_cons_of_mem _ (hn' ▸ hm)) ho'
    · have hno₁ : o₁ ∉ List.map Prod.fst rest := (List.nodup_cons.mp hnodup).1
      have hnodup' : List.Nodup (List.map Prod.fst rest) :=
        (List.nodup_cons.mp hnodup).2
      have hne : o₁ ≠ o := by
        intro hh
        subst hh
        exact hno₁ (List.mem_map.mpr ⟨(o₁, n), htail, rfl⟩)
      cases hfind : StrMap.find? params o₁ with
      | none =>
        simp only [applyRenames, hfind]
        exact ih _ _ hnodup' htail hval
          (fun o' hm hne' => hothers o' (List.mem_cons_of_mem _ hm) hne')
      | some w =>
        simp only [applyRenames, hfind]
        refine ih _ _ hnodup' htail ?_ ?_
        · rw [StrMap.find?_erase, if_neg (fun h : o = o₁ => hne h.symm)]
          exact hval
        · intro o' hm hne'
          rw [StrMap.find?_erase]
          by_cases ho' : o' = o₁
          · simp [ho']
          · simp only [if_neg ho']
            exact hothers o' (List.mem_cons_of_mem _ hm) hne'

theorem replacements_olds_nodup :
    List.Nodup (List.map Prod.fst replacements) := by decide

theorem replacements_no_cross :
    ∀ p ∈ replacements, p.1 ∉ List.map Prod.snd replacements ∧
      p.2 ∉ List.map Prod.fst replacements := by decide

theorem replacements_no_proxy :
    ("proxy" ∉ List.map Prod.fst replacements) ∧
    ("proxy" ∉ List.map Prod.snd replacements) ∧
    ("proxytype" ∉ List.map Prod.fst replacements) ∧
    ("proxytype" ∉ List.map Prod.snd replacements) := by decide

/-- A key outside the rename table and different from `proxy` passes
through `rename_params` with its value intact (the final `extend` gives
the untouched caller bindings priority). -/
theorem rename_params_pass_through (pp : String → Option (String × String))
    (params : StrMap) (key w : String)
    (hwf : StrMap.WF params)
    (hold : key ∉ List.map Prod.fst replacements)
    (hproxy : key ≠ "proxy")
    (hval : StrMap.find? params key = some w) :
    StrMap.find? (rename_params pp params) key = some w := by
  have hstep1 : StrMap.find? (applyRenames replacements params []).1 key =
      some w := by
    rw [applyRenames_fst_find?, if_neg hold]
    exact hval
  have hwf1 : StrMap.WF (applyRenames replacements params []).1 :=
    applyRenames_fst_wf _ _ _ hwf
  have hwf1' := StrMap.wf_erase hwf1 "proxy"
  have hstep1' : StrMap.find?
      (StrMap.erase (applyRenames replacements params []).1 "proxy") key =
      some w := by
    rw [StrMap.find?_erase, if_neg hproxy]
    exact hstep1
  cases hp : StrMap.find? (applyRenames replacements params []).1 "proxy" with
  | none =>
    simp only [rename_params, hp]
    exact StrMap.find?_extend_of_mem _ _ _ _ hwf1 hstep1
  | some s =>
    cases hpp : pp s with
    | none =>
      simp only [rename_params, hp, hpp]
      exact StrMap.find?_extend_of_mem _ _ _ _ hwf1' hstep1'
    | some u =>
      obtain ⟨u1, u2⟩ := u
      simp only [rename_params, hp, hpp]
      exact StrMap.find?_extend_of_mem _ _ _ _ hwf1' hstep1'

/-- An old key of a rename table entry is absent from the output of
`rename_params`: it is moved away unconditionally. -/
theorem rename_params_old_absent (pp : String → Option (String × String))
    (params : StrMap) (o n : String)
    (hmem : (o, n) ∈ replacements) :
    StrMap.find? (rename_params pp params) o = none := by
  have holds : o ∈ List.map Prod.fst replacements :=
    List.mem_map.mpr ⟨(o, n), hmem, rfl⟩
  have hcross := replacements_no_cross (o, n) hmem
  have hnp := replacements_no_proxy
  have ho_proxy : o ≠ "proxy" := fun h => hnp.1 (h ▸ holds)
  have ho_ptype : o ≠ "proxytype" := fun h => hnp.2.2.1 (h ▸ holds)
  have hstep1 : StrMap.find? (applyRenames replacements params []).1 o =
      none := by
    rw [applyRenames_fst_find?, if_pos holds]
  have hstep2 : StrMap.find? (applyRenames replacements params []).2 o =
      none := by
    rw [applyRenames_snd_not_target _ _ _ _ hcross.1]
    rfl
  have hstep1' : StrMap.find?
      (StrMap.erase (applyRenames replacements params []).1 "proxy") o =
      none := by
    rw [StrMap.find?_erase, if_neg ho_proxy]
    exact hstep1
  cases hp : StrMap.find? (applyRenames replacements params []).1 "proxy" with
  | none =>
    simp only [rename_params, hp]
    rw [StrMap.find?_extend_of_not_mem _ _ _ hstep1]
    exact hstep2
  | some s =>
    cases hpp : pp s with
    | none =>
      simp only [rename_params, hp, hpp]
      rw [StrMap.find?_extend_of_not_mem _ _ _ hstep1']
      exact hstep2
    | some u =>
      obtain ⟨u1, u2⟩ := u
      simp only [rename_params, hp, hpp]
      rw [StrMap.find?_extend_of_not_mem _ _ _ hstep1',
        StrMap.find?_insert_ne _ _ _ _ ho_ptype,
        StrMap.find?_insert_ne _ _ _ _ ho_proxy]
      exact hstep2

/-- A rename table entry whose old key is bound, whose new key is not a
caller key, and which no other bound old key collides with, binds the
new key to the moved value in the output of `rename_params`. -/
theorem rename_params_entry (pp : String → Option (String × String))
    (params : StrMap) (o n v : String)
    (hwf : StrMap.WF params)
    (hmem : (o, n) ∈ replacements)
    (hval : StrMap.find? params o = some v)
    (hothers : ∀ o', (o', n) ∈ replacements → o' ≠ o →
      StrMap.find? params o' = none)
    (hnew : StrMap.find? params n = none) :
    StrMap.find? (rename_params pp params) n = some v := by
  have htargets : n ∈ List.map Prod.snd replacements :=
    List.mem_map.mpr ⟨(o, n), hmem, rfl⟩
  have hcross := replacements_no_cross (o, n) hmem
  have hnp := replacements_no_proxy
  have hn_proxy : n ≠ "proxy" := fun h => hnp.2.1 (h ▸ htargets)
  have hn_ptype : n ≠ "proxytype" := fun h => hnp.2.2.2 (h ▸ htargets)
  have hstep1 : StrMap.find? (applyRenames replacements params []).1 n =
      none := by
    rw [applyRenames_fst_find?, if_neg hcross.2]
    exact hnew
  have hstep2 : StrMap.find? (applyRenames replacements params []).2 n =
      some v :=
    applyRenames_snd_entry replacements params [] o n v
      replacements_olds_nodup hmem hval hothers
  have hstep1' : StrMap.find?
      (StrMap.erase (applyRenames replacements params []).1 "proxy") n =
      none := by
    rw [StrMap.find?_erase, if_neg hn_proxy]
    exact hstep1
  cases hp : StrMap.find? (applyRenames replacements params []).1 "proxy" with
  | none =>
    simp only [rename_params, hp]
    rw [StrMap.find?_extend_of_not_mem _ _ _ hstep1]
    exact hstep2
  | some s =>
    cases hpp : pp s with
    | none =>
      simp only [rename_params, hp, hpp]
      rw [StrMap.find?_extend_of_not_mem _ _ _ hstep1']
      exact hstep2
    | some u =>
      obtain ⟨u1, u2⟩ := u
      simp only [rename_params, hp, hpp]
      rw [StrMap.find?_extend_of_not_mem _ _ _ hstep1',
        StrMap.find?_insert_ne _ _ _ _ hn_ptype,
        StrMap.find?_insert_ne _ _ _ _ hn_proxy]
      exact hstep2

/-- Claim C4 (amended): for a rename table entry `(old, new)` whose old
key is bound to `v` in a well-formed input map, `rename_params` yields a
map binding `new` to `v` and no longer binding `old`, provided the input
does not itself bind the new key and binds no other old key renaming to
the same new key (`minLen`/`minLength` and `maxLen`/`maxLength` share
targets, and a caller-supplied binding of the new key overwrites the
renamed one); keys outside the table other than `proxy` pass through
unchanged, while a `proxy` binding is removed and replaced by parsed
`proxy`/`proxytype` fields or silently dropped. -/
theorem rename_params_table (pp : String → Option (String × String))
    (params : StrMap) (o n v : String)
    (hwf : StrMap.WF params)
    (hmem : (o, n) ∈ replacements)
    (hval : StrMap.find? params o = some v)
    (hothers : ∀ o', (o', n) ∈ replacements → o' ≠ o →
      StrMap.find? params o' = none)
    (hnew : StrMap.find? params n = none) :
    StrMap.find? (rename_params pp params) n = some v ∧
    StrMap.find? (rename_params pp params) o = none ∧
    (∀ key w, key ∉ List.map Prod.fst replacements → key ≠ "proxy" →
      StrMap.find? params key = some w →
      StrMap.find? (rename_params pp params) key = some w) :=
  ⟨rename_params_entry pp params o n v hwf hmem hval hothers hnew,
   rename_params_old_absent pp params o n hmem,
   fun key w h1 h2 h3 =>
     rename_params_pass_through pp params key w hwf h1 h2 h3⟩

/-- Witness for C4's amended theorem: `caseSensitive ↦ 1` moves to
`regsense ↦ 1`, the old key disappears, and the untouched key `other`
passes through. -/
theorem rename_params_table_witness :
    StrMap.find? (rename_params (fun _ => none)
      [("caseSensitive", "1"), ("other", "x")]) "regsense" = some "1" ∧
    StrMap.find? (rename_params (fun _ => none)
      [("caseSensitive", "1"), ("other", "x")]) "caseSensitive" = none ∧
    StrMap.find? (rename_params (fun _ => none)
      [("caseSensitive", "1"), ("other", "x")]) "other" = some "x" := by
  have huniq : ∀ p ∈ replacements, p.2 = "regsense" →
      p.1 = "caseSensitive" := by decide
  have h := rename_params_table (fun _ => none)
    [("caseSensitive", "1"), ("other", "x")] "caseSensitive" "regsense" "1"
    (by decide) (by decide) (by decide)
    (fun o' hm hne => absurd (huniq (o', "regsense") hm rfl) hne)
    (by decide)
  exact ⟨h.1, h.2.1, h.2.2 "other" "x" (by decide) (by decide) (by decide)⟩

/-- Counterexample to claim C4 as stated: with both `minLen ↦ 1` and
`minLength ↦ 2` present, the entry `(minLen, min_len)` does not yield
`min_len ↦ 1` — the later entry `(minLength, min_len)` overwrites it —
and the non-table key `proxy` does not pass through unchanged: an
unparseable value is silently dropped. -/
theorem rename_params_counterexample :
    StrMap.find? (rename_params (fun _ => none)
      [("minLen", "1"), ("minLength", "2")]) "min_len" = some "2" ∧
    ("minLen", "min_len") ∈ replacements ∧
    (some "2" ≠ some "1" : Prop) ∧
    ("proxy" ∉ List.map Prod.fst replacements) ∧
    StrMap.find? (rename_params (fun _ => none) [("proxy", "notjson")])
      "proxy" = none := by
  exact ⟨by rfl, by decide, by decide, by decide, by rfl⟩

/-- Lemma: `check_hint_img` never touches parameter keys other than
`imginstructions` and `file`: on success the returned parameter map
agrees with the input on every other key. -/
theorem check_hint_img_preserves (fx : String → Bool) (params files : StrMap)
    (key : String) (hk1 : key ≠ "imginstructions") (hk2 : key ≠ "file") :
    ∀ p f, check_hint_img fx params files = .ok (p, f) →
      StrMap.find? p key = StrMap.find? params key := by
  intro p f h
  unfold check_hint_img at h
  split at h
  next =>
    simp only [Except.ok.injEq, Prod.mk.injEq] at h
    rw [← h.1]
  next hint hhint =>
    split at h
    next hb =>
      simp only [Except.ok.injEq, Prod.mk.injEq] at h
      rw [← h.1, StrMap.find?_insert_ne _ _ _ _ hk1, StrMap.find?_erase,
        if_neg hk1]
    next hb =>
      split at h
      next hex => exact absurd h (by simp)
      next hex =>
        split at h
        next hemp =>
          split at h
          next fv hfile =>
            simp only [Except.ok.injEq, Prod.mk.injEq] at h
            rw [← h.1, StrMap.find?_erase, if_neg hk2, StrMap.find?_erase,
              if_neg hk1]
          next hfile =>
            simp only [Except.ok.injEq, Prod.mk.injEq] at h
            rw [← h.1, StrMap.find?_erase, if_neg hk1]
        next hemp =>
          simp only [Except.ok.injEq, Prod.mk.injEq] at h
          rw [← h.1, StrMap.find?_erase, if_neg hk1]

/-- Claim C10: for a client built with no soft-partner id, the
configuration stores the default soft id 4580, and on every successful
run of the submission parameter pipeline the map sent to the submission
endpoint binds `key` to the client's API key — overwriting any
caller-supplied `key` — and carries a `soft_id` binding. -/
theorem sent_params_key_soft_id (k : String) (cb : Option String)
    (dt rt pi : Option Nat) (sv : Option String) (ex : Option Bool)
    (pp : String → Option (String × String)) (fx : String → Bool)
    (params p f : StrMap)
    (hwf : StrMap.WF params)
    (hok : sentParams pp fx (TwoCaptcha.new k none cb dt rt pi sv ex) params =
      .ok (p, f)) :
    (TwoCaptcha.new k none cb dt rt pi sv ex).soft_id = some 4580 ∧
    StrMap.find? p "key" = some k ∧
    Option.isSome (StrMap.find? p "soft_id") = true := by
  set c := TwoCaptcha.new k none cb dt rt pi sv ex with hc
  have hsid : c.soft_id = some 4580 := rfl
  set dp := default_params c params with hdp
  have hdp_eq : dp = StrMap.insert
      (match c.callback with
       | some cbv => StrMap.insert (StrMap.insert params "key" c.api_key)
           "callback" cbv
       | none => StrMap.insert params "key" c.api_key)
      "softId" (Nat.repr 4580) := by
    rw [hdp]
    unfold default_params
    rw [hsid]
  have hdpkey : StrMap.find? dp "key" = some k := by
    rw [hdp_eq, StrMap.find?_insert_ne _ _ _ _ (by decide)]
    cases c.callback with
    | none => exact StrMap.find?_insert_self _ _ _
    | some cbv =>
      rw [StrMap.find?_insert_ne _ _ _ _ (by decide)]
      exact StrMap.find?_insert_self _ _ _
  have hdpsoft : StrMap.find? dp "softId" = some (Nat.repr 4580) := by
    rw [hdp_eq]
    exact StrMap.find?_insert_self _ _ _
  have hdpwf : StrMap.WF dp := by
    rw [hdp_eq]
    cases c.callback with
    | none => exact StrMap.wf_insert (StrMap.wf_insert hwf _ _) _ _
    | some cbv =>
      exact StrMap.wf_insert (StrMap.wf_insert (StrMap.wf_insert hwf _ _) _ _)
        _ _
  have hrpkey : StrMap.find? (rename_params pp dp) "key" = some k :=
    rename_params_pass_through pp dp "key" k hdpwf (by decide) (by decide)
      hdpkey
  have hrpsoft : Option.isSome
      (StrMap.find? (rename_params pp dp) "soft_id") = true := by
    cases hcaller : StrMap.find? dp "soft_id" with
    | some w =>
      rw [rename_params_pass_through pp dp "soft_id" w hdpwf (by decide)
        (by decide) hcaller]
      rfl
    | none =>
      have huniq : ∀ pr ∈ replacements, pr.2 = "soft_id" →
          pr.1 = "softId" := by decide
      rw [rename_params_entry pp dp "softId" "soft_id" (Nat.repr 4580) hdpwf
        (by decide) hdpsoft
        (fun o' hm hne => absurd (huniq (o', "soft_id") hm rfl) hne) hcaller]
      rfl
  have hok' : check_hint_img fx (rename_params pp dp) [] = .ok (p, f) := hok
  have hpres1 := check_hint_img_preserves fx (rename_params pp dp) [] "key"
    (by decide) (by decide) p f hok'
  have hpres2 := check_hint_img_preserves fx (rename_params pp dp) []
    "soft_id" (by decide) (by decide) p f hok'
  refine ⟨hsid, ?_, ?_⟩
  · rw [hpres1, hrpkey]
  · rw [hpres2]
    exact hrpsoft

/-- Witness for C10 at a concrete client and an empty caller map. -/
theorem sent_params_key_soft_id_witness :
    (TwoCaptcha.new "k" none none none none none none none).soft_id =
      some 4580 ∧
    StrMap.find? [("key", "k"), ("soft_id", "4580")] "key" = some "k" ∧
    Option.isSome
      (StrMap.find? [("key", "k"), ("soft_id", "4580")] "soft_id") = true :=
  sent_params_key_soft_id "k" none none none none none none
    (fun _ => none) (fun _ => true) [] [("key", "k"), ("soft_id", "4580")] []
    (by decide) (by rfl)

/-! ### Injectivity of the decimal rendering used for `file_<n>` keys -/

/-- Decode a list of decimal digit characters, most significant first. -/
def decDigits : List Char → Nat → Nat
  | [], acc => acc
  | c :: cs, acc => decDigits cs (acc * 10 + (c.toNat - 48))

theorem decDigits_append (xs : List Char) (c : Char) (acc : Nat) :
    decDigits (xs ++ [c]) acc = (decDigits xs acc) * 10 + (c.toNat - 48) := by
  induction xs generalizing acc with
  | nil => rfl
  | cons x xs ih => exact ih _

theorem toDigitsCore_fuel (n : Nat) : ∀ f₁ f₂ ds, n < f₁ → n < f₂ →
    Nat.toDigitsCore 10 f₁ n ds = Nat.toDigitsCore 10 f₂ n ds := by
  induction n using Nat.strong_induction_on with
  | _ n ih =>
    intro f₁ f₂ ds h₁ h₂
    obtain ⟨g₁, rfl⟩ : ∃ g, f₁ = g + 1 := ⟨f₁ - 1, by omega⟩
    obtain ⟨g₂, rfl⟩ : ∃ g, f₂ = g + 1 := ⟨f₂ - 1, by omega⟩
    simp only [Nat.toDigitsCore]
    by_cases hz : n / 10 = 0
    · simp [hz]
    · simp only [hz, if_false]
      have hlt : n / 10 < n := Nat.div_lt_self (by omega) (by omega)
      exact ih (n / 10) hlt g₁ g₂ _ (by omega) (by omega)

theorem toDigitsCore_append (n : Nat) : ∀ f ds, n < f →
    Nat.toDigitsCore 10 f n ds = Nat.toDigitsCore 10 f n [] ++ ds := by
  induction n using Nat.strong_induction_on with
  | _ n ih =>
    intro f ds h
    obtain ⟨g, rfl⟩ : ∃ g, f = g + 1 := ⟨f - 1, by omega⟩
    simp only [Nat.toDigitsCore]
    by_cases hz : n / 10 = 0
    · simp [hz]
    · simp only [hz, if_false]
      have hlt : n / 10 < n := Nat.div_lt_self (by omega) (by omega)
      rw [ih (n / 10) hlt g _ (by omega),
        ih (n / 10) hlt g [Nat.digitChar (n % 10)] (by omega)]
      simp [List.append_assoc]

theorem digitChar_val : ∀ m < 10, (Nat.digitChar m).toNat - 48 = m := by
  decide

theorem decDigits_toDigits (n : Nat) : decDigits (Nat.toDigits 10 n) 0 = n := by
  induction n using Nat.strong_induction_on with
  | _ n ih =>
    unfold Nat.toDigits
    simp only [Nat.toDigitsCore]
    by_cases hz : n / 10 = 0
    · simp only [hz, if_pos]
      have h10 : n < 10 := by omega
      have hv := digitChar_val (n % 10) (Nat.mod_lt _ (by omega))
      show decDigits [Nat.digitChar (n % 10)] 0 = n
      simp [decDigits, hv]
      omega
    · simp only [hz, if_false]
      have hlt : n / 10 < n := Nat.div_lt_self (by omega) (by omega)
      rw [toDigitsCore_fuel (n / 10) n (n / 10 + 1)
        [Nat.digitChar (n % 10)] (by omega) (by omega),
        toDigitsCore_append (n / 10) (n / 10 + 1)
        [Nat.digitChar (n % 10)] (by omega)]
      have happ := decDigits_append
        (Nat.toDigitsCore 10 (n / 10 + 1) (n / 10) []) (Nat.digitChar (n % 10)) 0
      rw [happ]
      have hv := digitChar_val (n % 10) (Nat.mod_lt _ (by omega))
      have hih : decDigits (Nat.toDigitsCore 10 (n / 10 + 1) (n / 10) []) 0 =
          n / 10 := ih (n / 10) hlt
      rw [hih, hv]
      omega

theorem strData_append (s t : String) : (s ++ t).data = s.data ++ t.data := by
  cases s
  cases t
  rfl

/-- Lemma: `Nat.repr` is injective, already at the level of character data. -/
theorem reprNat_injective (a b : Nat)
    (h : (Nat.repr a).data = (Nat.repr b).data) : a = b := by
  have hdig : Nat.toDigits 10 a = Nat.toDigits 10 b := h
  have := congrArg (fun l => decDigits l 0) hdig
  simpa [decDigits_toDigits] using this

/-- Distinct indices give distinct `file_<n>` keys. -/
theorem fileKey_inj (a b : Nat)
    (h : "file_" ++ Nat.repr a = "file_" ++ Nat.repr b) : a = b := by
  apply reprNat_injective
  have hd := congrArg String.data h
  rw [strData_append, strData_append] at hd
  exact List.append_cancel_left hd

/-! ### `extract_files` lemmas -/

/-- Keys already numbered below the running index are untouched by the
rest of the numbering loop. -/
theorem numberFiles_find?_old (files : List String) :
    ∀ (i : Nat) (acc : StrMap) (m : Nat), m ≤ i →
    StrMap.find? (numberFiles files i acc) ("file_" ++ Nat.repr m) =
      StrMap.find? acc ("file_" ++ Nat.repr m) := by
  induction files with
  | nil => intro i acc m _; rfl
  | cons f rest ih =>
    intro i acc m hm
    show StrMap.find? (numberFiles rest (i + 1)
      (StrMap.insert acc ("file_" ++ Nat.repr (i + 1)) f))
      ("file_" ++ Nat.repr m) = _
    rw [ih (i + 1) _ m (by omega)]
    exact StrMap.find?_insert_ne _ _ _ _
      (fun h => by have := fileKey_inj m (i + 1) h; omega)

/-- The numbering loop binds `file_<i+j+1>` to the `j`-th file. -/
theorem numberFiles_find? (files : List String) :
    ∀ (i : Nat) (acc : StrMap) (j : Nat) (hj : j < files.length),
    StrMap.find? (numberFiles files i acc) ("file_" ++ Nat.repr (i + j + 1)) =
      some (files.get ⟨j, hj⟩) := by
  induction files with
  | nil => intro i acc j hj; exact absurd hj (by simp)
  | cons f rest ih =>
    intro i acc j hj
    cases j with
    | zero =>
      show StrMap.find? (numberFiles rest (i + 1)
        (StrMap.insert acc ("file_" ++ Nat.repr (i + 1)) f))
        ("file_" ++ Nat.repr (i + 0 + 1)) = some f
      have hidx : i + 0 + 1 = i + 1 := by omega
      rw [hidx, numberFiles_find?_old rest (i + 1) _ (i + 1) (by omega)]
      exact StrMap.find?_insert_self _ _ _
    | succ j' =>
      show StrMap.find? (numberFiles rest (i + 1)
        (StrMap.insert acc ("file_" ++ Nat.repr (i + 1)) f))
        ("file_" ++ Nat.repr (i + (j' + 1) + 1)) = _
      have hidx : i + (j' + 1) + 1 = (i + 1) + j' + 1 := by omega
      rw [hidx]
      exact ih (i + 1) _ j' (by simpa using hj)

/-- Claim C7: `extract_files` with `n` paths and maximum `m` fails with a
Validation error naming the maximum when `n > m` (no partial mapping is
returned); with `n ≤ m` and some path missing it fails with a Validation
error carrying the debug rendering of the full list of missing paths, in
input order; and with all paths present it returns the mapping binding
`file_<j+1>` to the `j`-th path, 1-based in input order. -/
theorem extract_files_spec (fileExists : String → Bool) (files : List String)
    (max_files : Nat) :
    (files.length > max_files →
      extract_files fileExists files max_files =
        .error (.validation
          ("Too many files (max: " ++ Nat.repr max_files ++ ")"))) ∧
    (files.length ≤ max_files →
      List.filter (fun f => !fileExists f) files ≠ [] →
      extract_files fileExists files max_files =
        .error (.validation ("File not found: " ++
          rustDebugList (List.filter (fun f => !fileExists f) files)))) ∧
    (files.length ≤ max_files →
      List.filter (fun f => !fileExists f) files = [] →
      extract_files fileExists files max_files = .ok (numberFiles files 0 []) ∧
      ∀ j (hj : j < files.length),
        StrMap.find? (numberFiles files 0 []) ("file_" ++ Nat.repr (j + 1)) =
          some (files.get ⟨j, hj⟩)) := by
  refine ⟨fun hgt => ?_, fun hle hmiss => ?_, fun hle hall => ?_⟩
  · simp [extract_files, hgt]
  · have hne : (List.filter (fun f => !fileExists f) files).isEmpty = false :=
      by simpa [List.isEmpty_iff] using hmiss
    simp [extract_files, Nat.not_lt.mpr hle, hne]
  · constructor
    · have hemp : (List.filter (fun f => !fileExists f) files).isEmpty = true :=
        by simp [List.isEmpty_iff, hall]
      simp [extract_files, Nat.not_lt.mpr hle, hemp]
    · intro j hj
      have := numberFiles_find? files 0 [] j hj
      simpa using this

/-- Witness for C7: a two-file batch against maximum 1 overflows, a
missing file is reported with its full debug list, and an existing batch
is numbered in order. -/
theorem extract_files_spec_witness :
    extract_files (fun _ => true) ["a.png", "b.png"] 1 =
      .error (.validation ("Too many files (max: " ++ Nat.repr 1 ++ ")")) ∧
    extract_files (fun _ => false) ["a.png", "b.png"] 5 =
      .error (.validation ("File not found: " ++
        rustDebugList (List.filter (fun f => !(fun _ => false) f)
          ["a.png", "b.png"]))) ∧
    extract_files (fun _ => true) ["a.png", "b.png"] 5 =
      .ok (numberFiles ["a.png", "b.png"] 0 []) ∧
    StrMap.find? (numberFiles ["a.png", "b.png"] 0 [])
      ("file_" ++ Nat.repr (0 + 1)) = some "a.png" ∧
    StrMap.find? (numberFiles ["a.png", "b.png"] 0 [])
      ("file_" ++ Nat.repr (1 + 1)) = some "b.png" := by
  have h1 := (extract_files_spec (fun _ => true) ["a.png", "b.png"] 1).1
    (by decide)
  have h2 := (extract_files_spec (fun _ => false) ["a.png", "b.png"] 5).2.1
    (by decide) (by decide)
  have h3 := (extract_files_spec (fun _ => true) ["a.png", "b.png"] 5).2.2
    (by decide) (by decide)
  exact ⟨h1, h2, h3.1, h3.2 0 (by decide), h3.2 1 (by decide)⟩

end TwoCap
